import Mathlib

set_option maxRecDepth 8000

/-!
Verification of the receipt-extraction core of a personal expense tracker.

The development shallowly embeds the TypeScript source:
* the field-extraction regexes of `parseBankReceiptText` as a small
  backtracking matcher over `List Char`, mirroring JavaScript
  `String.prototype.match` semantics (leftmost match, greedy quantifiers
  with backtracking, `/i` canonicalisation, capture groups);
* the PDF/OCR pipeline (`pdfToImageDataURL`, `extractTextWithOCR`,
  `parseBankReceiptPDF`) as functions over an environment describing the
  outcomes of the effectful library calls, returning the result together
  with a trace of the effect events that occurred;
* the date/amount normalisation utilities `parseDate`, `parseAmount` and
  the converter `receiptDataToExpense`.
-/

/-- The JavaScript whitespace set: the characters matched by `\s` in a
regular expression, which is also the set stripped by
`String.prototype.trim` (WhiteSpace ∪ LineTerminator). -/
def jsSpace (c : Char) : Bool :=
  c == ' ' || c == '\t' || c == '\n' || c == '\x0b' || c == '\x0c' || c == '\r' ||
  c.toNat == 0xa0 || c.toNat == 0x1680 ||
  (0x2000 ≤ c.toNat && c.toNat ≤ 0x200a) ||
  c.toNat == 0x2028 || c.toNat == 0x2029 || c.toNat == 0x202f ||
  c.toNat == 0x205f || c.toNat == 0x3000 || c.toNat == 0xfeff

/-- Canonical value of a character under JavaScript `/i` matching (the
`Canonicalize` operation of a case-insensitive, non-Unicode-mode regex:
`toUpperCase` of the single character, kept only when it does not map a
non-ASCII character onto ASCII).  We cover ASCII and the Latin-1 block,
which contains every character appearing in the embedded pattern
literals; characters above U+00FF whose upper-case form is ASCII (such as
U+017F) are deliberately left unchanged, exactly as `Canonicalize`
prescribes. -/
def canonV (c : Char) : Nat :=
  let n := c.toNat
  if 97 ≤ n ∧ n ≤ 122 then n - 32
  else if (224 ≤ n ∧ n ≤ 254) ∧ n ≠ 247 then n - 32
  else n

/-- The character class `[:\s]`. -/
def colonSpace (c : Char) : Bool := c == ':' || jsSpace c

/-- The character class `[^\n]`. -/
def notNL (c : Char) : Bool := c != '\n'

/-- The character class `[0-9,\s]`. -/
def digitCommaSpace (c : Char) : Bool := c.isDigit || c == ',' || jsSpace c

/-- The character class `[0-9\s]`. -/
def digitSpace (c : Char) : Bool := c.isDigit || jsSpace c

/-- The character class `[.,]`. -/
def dotComma (c : Char) : Bool := c == '.' || c == ','

/-- The character class `[-\/]`. -/
def dashSlash (c : Char) : Bool := c == '-' || c == '/'

/-- The single-character class `\$`. -/
def isDollar (c : Char) : Bool := c == '$'

/-- The single-character class `\.`. -/
def isDotC (c : Char) : Bool := c == '.'

/-- One element of a regular expression, in the fragment used by the
source: every quantifier in the source patterns ranges over a single
character class, so a pattern is a flat sequence of these items.
`openG`/`closeG` delimit capture groups and `eos` is the `$` anchor. -/
inductive RItem where
  | cls (p : Char → Bool)
  | many (p : Char → Bool) (lo : Nat) (hi : Option Nat)
  | lit (s : List Char) (ci : Bool)
  | openG
  | closeG
  | eos

/-- Match a literal (case-insensitively when `ci` is set, via `/i`
canonicalisation), returning the remaining input. -/
def litMatch (ci : Bool) : List Char → List Char → Option (List Char)
  | [], cs => some cs
  | _ :: _, [] => none
  | l :: ls, c :: cs =>
    if (if ci then canonV c == canonV l else c == l) then litMatch ci ls cs else none

/-- Length of the maximal prefix run of characters satisfying `p`. -/
def runLen (p : Char → Bool) : List Char → Nat
  | [] => 0
  | c :: cs => if p c then runLen p cs + 1 else 0

/-- Backtracking matcher for a sequence of regex items against `cs`
(a suffix of the subject starting at absolute position `pos`).  Greedy
quantifiers are realised by trying the longest feasible repetition count
first and backtracking downwards, exactly the ECMAScript semantics for a
quantified character class.  `gs` is the stack of open-group start
positions and `caps` the completed captures `(start, stop)` in opening
order (the embedded patterns have no nested groups).  The `fuel`
parameter only forces structural recursion; each step consumes one item,
so any `fuel` larger than the item-list length is inexhaustible. -/
def matchSeqF : Nat → List RItem → List Char → Nat → List Nat → List (Nat × Nat) →
    Option (List (Nat × Nat))
  | 0, _, _, _, _, _ => none
  | _ + 1, [], _, _, _, caps => some caps
  | fuel + 1, .cls p :: rest, cs, pos, gs, caps =>
    match cs with
    | [] => none
    | c :: cs' => if p c then matchSeqF fuel rest cs' (pos + 1) gs caps else none
  | fuel + 1, .lit s ci :: rest, cs, pos, gs, caps =>
    match litMatch ci s cs with
    | some cs' => matchSeqF fuel rest cs' (pos + s.length) gs caps
    | none => none
  | fuel + 1, .many p lo hi :: rest, cs, pos, gs, caps =>
    let n := match hi with
      | some h => min (runLen p cs) h
      | none => runLen p cs
    if n < lo then none
    else
      (List.range (n + 1 - lo)).findSome? fun i =>
        matchSeqF fuel rest (cs.drop (n - i)) (pos + (n - i)) gs caps
  | fuel + 1, .openG :: rest, cs, pos, gs, caps =>
    matchSeqF fuel rest cs pos (pos :: gs) caps
  | fuel + 1, .closeG :: rest, cs, pos, gs, caps =>
    match gs with
    | g :: gs' => matchSeqF fuel rest cs pos gs' (caps ++ [(g, pos)])
    | [] => none
  | fuel + 1, .eos :: rest, cs, pos, gs, caps =>
    match cs with
    | [] => matchSeqF fuel rest cs pos gs caps
    | _ :: _ => none

/-- The matcher at its canonical (always sufficient) fuel. -/
def matchRun (items : List RItem) (cs : List Char) (pos : Nat) (gs : List Nat)
    (caps : List (Nat × Nat)) : Option (List (Nat × Nat)) :=
  matchSeqF (items.length + 1) items cs pos gs caps

/-- Run the item sequence at one fixed start position. -/
def matchSeq (items : List RItem) (cs : List Char) (pos : Nat) : Option (List (Nat × Nat)) :=
  matchRun items cs pos [] []

/-- Scan for the leftmost start position at which the pattern matches:
the search order of an unanchored JavaScript `String.prototype.match`. -/
def searchAux (re : List RItem) : List Char → Nat → Option (List (Nat × Nat))
  | cs, pos =>
    match matchSeq re cs pos with
    | some caps => some caps
    | none =>
      match cs with
      | [] => none
      | _ :: cs' => searchAux re cs' (pos + 1)

/-- JavaScript `text.match(re)` for an unanchored pattern: capture positions of the
leftmost match, if any. -/
def jsSearch (re : List RItem) (s : String) : Option (List (Nat × Nat)) :=
  searchAux re s.data 0

/-- JavaScript `text.match(re)` for a `^...$`-anchored pattern: the match must start
at position 0 and (via a trailing `eos` item) consume the whole string. -/
def jsMatchAnchored (re : List RItem) (s : String) : Option (List (Nat × Nat)) :=
  matchSeq (re ++ [.eos]) s.data 0

/-- The slice of `cs` between absolute positions `a` and `b`. -/
def sliceL (cs : List Char) (a b : Nat) : List Char := (cs.take b).drop a

/-- First capture group of the leftmost match (`match?.[1]`). -/
def jsMatchGroup1 (re : List RItem) (s : String) : Option String :=
  match jsSearch re s with
  | some ((a, b) :: _) => some (String.mk (sliceL s.data a b))
  | some [] => none
  | none => none

/-- JavaScript `String.prototype.trim` on a character list. -/
def trimL (l : List Char) : List Char :=
  ((l.dropWhile jsSpace).reverse.dropWhile jsSpace).reverse

/-- JavaScript `String.prototype.trim`. -/
def jsTrim (s : String) : String := String.mk (trimL s.data)

/-- Source `extractField(text, pattern)`: first capture group of the
leftmost match, trimmed; `undefined` (here `none`) when the pattern does
not match. -/
def extractField (text : String) (pattern : List RItem) : Option String :=
  (jsMatchGroup1 pattern text).map jsTrim

/-- JavaScript `||` on field-extraction results: `undefined` and the
empty string are falsy, so either falls through to the next candidate;
the last candidate's value is returned as-is. -/
def orF (a b : Option String) : Option String :=
  match a with
  | some s => if s = "" then b else some s
  | none => b

/-- Source pattern `/FROM[:\s]+([^\n]+)/i` -/
def reFROM : List RItem :=
  [.lit "FROM".data true, .many colonSpace 1 none, .openG, .many notNL 1 none, .closeG]

/-- Source pattern `/Sender[:\s]+([^\n]+)/i` -/
def reSender : List RItem :=
  [.lit "Sender".data true, .many colonSpace 1 none, .openG, .many notNL 1 none, .closeG]

/-- Source pattern `/Payer[:\s]+([^\n]+)/i` -/
def rePayer : List RItem :=
  [.lit "Payer".data true, .many colonSpace 1 none, .openG, .many notNL 1 none, .closeG]

/-- Source pattern `/FrÃ¥n[:\s]+([^\n]+)/i` — NOTE: the source file's "Swedish" pattern
literal is mojibake: its bytes are the double-UTF-8-encoding of `Från`,
so the literal consists of the five characters `F`, `r`, `Ã` (U+00C3),
`¥` (U+00A5), `n`. -/
def reFran : List RItem :=
  [.lit ['F', 'r', 'Ã', '¥', 'n'] true, .many colonSpace 1 none,
   .openG, .many notNL 1 none, .closeG]

/-- Source pattern `/TO[:\s]+([^\n]+)/i` -/
def reTO : List RItem :=
  [.lit "TO".data true, .many colonSpace 1 none, .openG, .many notNL 1 none, .closeG]

/-- Source pattern `/Recipient[:\s]+([^\n]+)/i` -/
def reRecipient : List RItem :=
  [.lit "Recipient".data true, .many colonSpace 1 none, .openG, .many notNL 1 none, .closeG]

/-- Source pattern `/Payee[:\s]+([^\n]+)/i` -/
def rePayee : List RItem :=
  [.lit "Payee".data true, .many colonSpace 1 none, .openG, .many notNL 1 none, .closeG]

/-- Source pattern `/Merchant[:\s]+([^\n]+)/i` -/
def reMerchant : List RItem :=
  [.lit "Merchant".data true, .many colonSpace 1 none, .openG, .many notNL 1 none, .closeG]

/-- Source pattern `/Till[:\s]+([^\n]+)/i` -/
def reTill : List RItem :=
  [.lit "Till".data true, .many colonSpace 1 none, .openG, .many notNL 1 none, .closeG]

/-- Source pattern `/Mottagare[:\s]+([^\n]+)/i` -/
def reMottagare : List RItem :=
  [.lit "Mottagare".data true, .many colonSpace 1 none, .openG, .many notNL 1 none, .closeG]

/-- Source pattern `/AMOUNT[:\s]+\$?([0-9,\s]+\.?[0-9]*)/i` — the optional `$` sits
outside the capture group. -/
def reAMOUNT : List RItem :=
  [.lit "AMOUNT".data true, .many colonSpace 1 none, .many isDollar 0 (some 1),
   .openG, .many digitCommaSpace 1 none, .many isDotC 0 (some 1),
   .many Char.isDigit 0 none, .closeG]

/-- Source pattern `/Total[:\s]+\$?([0-9,\s]+\.?[0-9]*)/i` -/
def reTotal : List RItem :=
  [.lit "Total".data true, .many colonSpace 1 none, .many isDollar 0 (some 1),
   .openG, .many digitCommaSpace 1 none, .many isDotC 0 (some 1),
   .many Char.isDigit 0 none, .closeG]

/-- Source pattern `/Belopp[:\s]+([0-9,\s]+[.,]?[0-9]*)/i` -/
def reBelopp : List RItem :=
  [.lit "Belopp".data true, .many colonSpace 1 none,
   .openG, .many digitCommaSpace 1 none, .many dotComma 0 (some 1),
   .many Char.isDigit 0 none, .closeG]

/-- Source pattern `/([0-9\s]+[.,][0-9]{2})\s*kr/i` -/
def reKrSuffix : List RItem :=
  [.openG, .many digitSpace 1 none, .cls dotComma, .many Char.isDigit 2 (some 2), .closeG,
   .many jsSpace 0 none, .lit "kr".data true]

/-- Source pattern `/\$?\s*([0-9,\s]+\.[0-9]{2})/` -/
def reGenericAmount : List RItem :=
  [.many isDollar 0 (some 1), .many jsSpace 0 none,
   .openG, .many digitCommaSpace 1 none, .cls isDotC, .many Char.isDigit 2 (some 2), .closeG]

/-- Source pattern `/TRANSACTION TYPE[:\s]+([^\n]+)/i` -/
def reTransactionType : List RItem :=
  [.lit "TRANSACTION TYPE".data true, .many colonSpace 1 none,
   .openG, .many notNL 1 none, .closeG]

/-- Source pattern `/Type[:\s]+([^\n]+)/i` -/
def reType : List RItem :=
  [.lit "Type".data true, .many colonSpace 1 none, .openG, .many notNL 1 none, .closeG]

/-- Source pattern `/Payment Method[:\s]+([^\n]+)/i` -/
def rePaymentMethod : List RItem :=
  [.lit "Payment Method".data true, .many colonSpace 1 none, .openG, .many notNL 1 none, .closeG]

/-- Source pattern `/Transaktionstyp[:\s]+([^\n]+)/i` -/
def reTransaktionstyp : List RItem :=
  [.lit "Transaktionstyp".data true, .many colonSpace 1 none, .openG, .many notNL 1 none, .closeG]

/-- Source pattern `/Typ[:\s]+([^\n]+)/i` -/
def reTyp : List RItem :=
  [.lit "Typ".data true, .many colonSpace 1 none, .openG, .many notNL 1 none, .closeG]

/-- Source pattern `/DATE[:\s]+([0-9]{1,2}[-\/][0-9]{1,2}[-\/][0-9]{2,4})/i` -/
def reDATE : List RItem :=
  [.lit "DATE".data true, .many colonSpace 1 none,
   .openG, .many Char.isDigit 1 (some 2), .cls dashSlash, .many Char.isDigit 1 (some 2),
   .cls dashSlash, .many Char.isDigit 2 (some 4), .closeG]

/-- Source pattern `/Transaction Date[:\s]+([0-9]{1,2}[-\/][0-9]{1,2}[-\/][0-9]{2,4})/i` -/
def reTransactionDate : List RItem :=
  [.lit "Transaction Date".data true, .many colonSpace 1 none,
   .openG, .many Char.isDigit 1 (some 2), .cls dashSlash, .many Char.isDigit 1 (some 2),
   .cls dashSlash, .many Char.isDigit 2 (some 4), .closeG]

/-- Source pattern `/Datum[:\s]+([0-9]{1,2}[-\/][0-9]{1,2}[-\/][0-9]{2,4})/i` -/
def reDatum : List RItem :=
  [.lit "Datum".data true, .many colonSpace 1 none,
   .openG, .many Char.isDigit 1 (some 2), .cls dashSlash, .many Char.isDigit 1 (some 2),
   .cls dashSlash, .many Char.isDigit 2 (some 4), .closeG]

/-- Source pattern `/([0-9]{4}[-\/][0-9]{1,2}[-\/][0-9]{1,2})/` -/
def reISODate : List RItem :=
  [.openG, .many Char.isDigit 4 (some 4), .cls dashSlash, .many Char.isDigit 1 (some 2),
   .cls dashSlash, .many Char.isDigit 1 (some 2), .closeG]

/-- Source pattern `/([0-9]{1,2}[-\/][0-9]{1,2}[-\/][0-9]{2,4})/` -/
def reAnyDate : List RItem :=
  [.openG, .many Char.isDigit 1 (some 2), .cls dashSlash, .many Char.isDigit 1 (some 2),
   .cls dashSlash, .many Char.isDigit 2 (some 4), .closeG]

/-- The `BankReceiptData` interface: five optional string fields
(`from` is spelt `from_` because `from` is a Lean keyword). -/
structure BankReceiptData where
  from_ : Option String
  to_ : Option String
  amount : Option String
  transactionType : Option String
  date : Option String
deriving DecidableEq

/-- Source `parseBankReceiptText`: for each field, the ordered battery of
patterns combined with JavaScript `||` (first truthy extraction wins). -/
def parseBankReceiptText (text : String) : BankReceiptData :=
  { from_ := orF (extractField text reFROM) (orF (extractField text reSender)
      (orF (extractField text rePayer) (extractField text reFran))),
    to_ := orF (extractField text reTO) (orF (extractField text reRecipient)
      (orF (extractField text rePayee) (orF (extractField text reMerchant)
      (orF (extractField text reTill) (extractField text reMottagare))))),
    amount := orF (extractField text reAMOUNT) (orF (extractField text reTotal)
      (orF (extractField text reBelopp) (orF (extractField text reKrSuffix)
      (extractField text reGenericAmount)))),
    transactionType := orF (extractField text reTransactionType)
      (orF (extractField text reType) (orF (extractField text rePaymentMethod)
      (orF (extractField text reTransaktionstyp) (extractField text reTyp)))),
    date := orF (extractField text reDATE) (orF (extractField text reTransactionDate)
      (orF (extractField text reDatum) (orF (extractField text reISODate)
      (extractField text reAnyDate)))) }

/-! ## The PDF / OCR pipeline

The effectful library calls (pdf.js, Tesseract, the DOM canvas) are
modelled by an environment record giving the outcome of each call; the
embedded functions return their result together with the list of effect
events that occurred, in order. -/

/-- The JavaScript error values that can flow through the pipeline:
the two custom error classes of the source, a plain `Error` with its
message, and a thrown non-`Error` value. -/
inductive JsErr where
  | load (msg : String)
  | extraction (msg : String)
  | generic (msg : String)
  | nonError
deriving DecidableEq

/-- Effect events of one pipeline run. -/
inductive Ev where
  | getDocument
  | getPage
  | render
  | destroyDoc
  | createWorker
  | recognize
  | terminateWorker
  | progress (n : Nat)
deriving DecidableEq

/-- Outcomes of the effectful calls made while converting a PDF page to
an image: `file.arrayBuffer()`, `getDocument(...).promise`,
`pdf.getPage(1)`, `canvas.getContext` with the `2d` context kind (which yields a context or
`null`), `page.render(...).promise`, and the resulting data URL. -/
structure PdfEnv where
  arrayBufferR : Except JsErr Unit
  loadR : Except JsErr Unit
  pageR : Except JsErr Unit
  contextOk : Bool
  renderR : Except JsErr Unit
  dataURL : String

/-- Source `pdfToImageDataURL`: load the document, take page 1, render it
to a canvas at scale 2.0 and return the data URL.  `pdf.destroy()` is
executed only after a successful render — the function has no
`try`/`finally`, so a thrown error (missing context, render failure)
skips the clean-up.  A missing canvas context throws a plain
a plain error carrying the message `Failed to get canvas context`. -/
def pdfToImageDataURL (env : PdfEnv) : Except JsErr String × List Ev :=
  match env.arrayBufferR with
  | .error e => (.error e, [])
  | .ok _ =>
  match env.loadR with
  | .error e => (.error e, [.getDocument])
  | .ok _ =>
  match env.pageR with
  | .error e => (.error e, [.getDocument, .getPage])
  | .ok _ =>
  if env.contextOk = false then
    (.error (.generic "Failed to get canvas context"), [.getDocument, .getPage])
  else
    match env.renderR with
    | .error e => (.error e, [.getDocument, .getPage, .render])
    | .ok _ => (.ok env.dataURL, [.getDocument, .getPage, .render, .destroyDoc])

/-- The input file: a declared media type string and a byte size. -/
structure JsFile where
  type : String
  size : Nat

/-- Outcomes of the OCR-level calls: `createWorker` for the `eng` model, the nested
PDF conversion, `worker.recognize(...)` and `worker.terminate()`. -/
structure OcrEnv where
  pdf : PdfEnv
  createWorkerR : Except JsErr Unit
  recognizeR : Except JsErr String
  terminateR : Except JsErr Unit

/-- Source `extractTextWithOCR`: acquire a worker, convert the file to an
image first when its type is exactly `application/pdf`, recognize, and
terminate the worker in a `finally` (so termination also runs on
failure; an error thrown by the `finally` itself replaces the result). -/
def extractTextWithOCR (file : JsFile) (env : OcrEnv) : Except JsErr String × List Ev :=
  match env.createWorkerR with
  | .error e => (.error e, [])
  | .ok _ =>
    let body : Except JsErr String × List Ev :=
      if file.type = "application/pdf" then
        match pdfToImageDataURL env.pdf with
        | (.error e, pevs) => (.error e, pevs)
        | (.ok _, pevs) =>
          match env.recognizeR with
          | .error e => (.error e, pevs ++ [.recognize])
          | .ok t => (.ok t, pevs ++ [.recognize])
      else
        match env.recognizeR with
        | .error e => (.error e, [.recognize])
        | .ok t => (.ok t, [.recognize])
    let evs := .createWorker :: body.2 ++ [.terminateWorker]
    match env.terminateR with
    | .error e => (.error e, evs)
    | .ok _ => (body.1, evs)

/-- The tagged result record returned by `parseBankReceiptPDF`. -/
structure ParseResult where
  success : Bool
  data : Option BankReceiptData
  rawText : Option String
  error : Option String
deriving DecidableEq

/-- The 10 MiB size limit. -/
def maxSize : Nat := 10 * 1024 * 1024

/-- JavaScript `String.prototype.includes`: `sub` occurs contiguously in `l`. -/
def occursIn : List Char → List Char → Bool
  | sub, cs =>
    (litMatch false sub cs).isSome ||
      match cs with
      | [] => false
      | _ :: cs' => occursIn sub cs'

/-- The check `file.type.includes(sub)`. -/
def strIncludes (s sub : String) : Bool := occursIn sub.data s.data

/-- The `catch` clause of `parseBankReceiptPDF`: the two custom error
classes surface their own message; anything else is wrapped as
`Failed to process file: ...` (with `Unknown error occurred` for thrown
non-`Error` values). -/
def catchErr : JsErr → ParseResult
  | .load m => { success := false, data := none, rawText := none, error := some m }
  | .extraction m => { success := false, data := none, rawText := none, error := some m }
  | .generic m =>
    { success := false, data := none, rawText := none,
      error := some ("Failed to process file: " ++ m) }
  | .nonError =>
    { success := false, data := none, rawText := none,
      error := some "Failed to process file: Unknown error occurred" }

/-- The `try`-block body of `parseBankReceiptPDF`: type/size/emptiness
validation (each violation throwing a `PDFLoadError`), OCR, the
empty-transcription check (a `PDFExtractionError`), then field parsing.
Progress callbacks fire at 10, 90 and 100. -/
def parseBankReceiptPDFBody (file : JsFile) (env : OcrEnv) :
    Except JsErr (BankReceiptData × String) × List Ev :=
  if (strIncludes file.type "pdf" || strIncludes file.type "image") = false then
    (.error (.load "Invalid file type. Please upload a PDF or image file."), [])
  else if maxSize < file.size then
    (.error (.load "File size exceeds 10MB limit."), [])
  else if file.size = 0 then
    (.error (.load "File is empty."), [])
  else
    match extractTextWithOCR file env with
    | (.error e, evs) => (.error e, .progress 10 :: evs)
    | (.ok fullText, evs) =>
      if (jsTrim fullText).length = 0 then
        (.error (.extraction "No text content found. The image might be too blurry or low quality."),
         .progress 10 :: (evs ++ [.progress 90]))
      else
        (.ok (parseBankReceiptText fullText, fullText),
         .progress 10 :: (evs ++ [.progress 90, .progress 100]))

/-- Source `parseBankReceiptPDF` (the spec's `extractReceipt`): run the
body and convert any thrown error into a tagged failure result. -/
def parseBankReceiptPDF (file : JsFile) (env : OcrEnv) : ParseResult × List Ev :=
  match parseBankReceiptPDFBody file env with
  | (.ok (d, t), evs) =>
    ({ success := true, data := some d, rawText := some t, error := none }, evs)
  | (.error e, evs) => (catchErr e, evs)

/-! ## Date and amount normalisation (`dateHelpers.ts`) -/

/-- JavaScript `parseInt(s, 10)` on an all-digit capture. -/
def digitsVal (l : List Char) : Nat :=
  l.foldl (fun a c => a * 10 + (c.toNat - 48)) 0

/-- Day count from civil date (proleptic Gregorian, days since the epoch
1970-01-01), for a normalised month `1 ≤ m ≤ 12`; the standard
era-based algorithm, matching ECMAScript `MakeDay`'s day numbering
(integer `/` and `%` are Euclidean division, which coincides with the
floor division/modulus of the algorithm for the positive divisors used
here). -/
def daysFromCivil (y m d : Int) : Int :=
  let y' := if m ≤ 2 then y - 1 else y
  let era := y' / 400
  let yoe := y' - era * 400
  let mp := (m + 9) % 12
  let doy := (153 * mp + 2) / 5 + d - 1
  let doe := yoe * 365 + yoe / 4 - yoe / 100 + doy
  era * 146097 + doe - 719468

/-- ECMAScript `new Date(year, monthIndex, day)` (local midnight),
returned as a day number: years 0–99 are interpreted as 1900–1999, the
month index is folded into the year with floor division, and an
out-of-range day simply offsets the first of the month (this is the
roll-over behaviour of `MakeDay`). -/
def jsMakeDay (year monthIndex day : Int) : Int :=
  let yr := if 0 ≤ year ∧ year ≤ 99 then year + 1900 else year
  let ym := yr * 12 + monthIndex
  daysFromCivil (ym / 12) (ym % 12 + 1) 1 + (day - 1)

/-- date-fns `isValid` on a constructed `Date`: its time value must not
be NaN, i.e. the day number must lie within ECMAScript's ±8.64e15 ms
range (±100,000,000 days). -/
def isValidDay (d : Int) : Bool := d.natAbs ≤ 100000000

/-- Capture group `i` of a match, as the sliced substring. -/
def capSlice (s : String) (caps : List (Nat × Nat)) (i : Nat) : List Char :=
  sliceL s.data (caps.getD i (0, 0)).1 (caps.getD i (0, 0)).2

/-- Source `parseDate`'s first format, `/^(\d{1,2})[-\/](\d{1,2})[-\/](\d{2,4})$/`
(MM/DD/YYYY or MM-DD-YYYY; the `$` anchor is added by
`jsMatchAnchored`). -/
def reDateFmt0 : List RItem :=
  [.openG, .many Char.isDigit 1 (some 2), .closeG, .cls dashSlash,
   .openG, .many Char.isDigit 1 (some 2), .closeG, .cls dashSlash,
   .openG, .many Char.isDigit 2 (some 4), .closeG]

/-- Source `parseDate`'s second format, `/^(\d{4})[-\/](\d{1,2})[-\/](\d{1,2})$/`
(YYYY-MM-DD). -/
def reDateFmt1 : List RItem :=
  [.openG, .many Char.isDigit 4 (some 4), .closeG, .cls dashSlash,
   .openG, .many Char.isDigit 1 (some 2), .closeG, .cls dashSlash,
   .openG, .many Char.isDigit 1 (some 2), .closeG]

/-- Source `parseDate`.  The two regex formats are tried in order; a
match is converted with `new Date(year, month - 1, day)` (two-digit
years in the first format windowed to 2000–2049 / 1950–1999) and
returned if valid; otherwise the date-fns `parseISO` fallback decides.
`parseISO` is an external library function (not part of this
repository), so it is passed in as a parameter; `none` stands for an
invalid parse. -/
def parseDate (parseISO : String → Option Int) (dateString : String) : Option Int :=
  let fmt0 : Option Int :=
    match jsMatchAnchored reDateFmt0 dateString with
    | some caps =>
      let month := digitsVal (capSlice dateString caps 0)
      let day := digitsVal (capSlice dateString caps 1)
      let year0 := digitsVal (capSlice dateString caps 2)
      let year := if year0 < 100 then (if year0 < 50 then year0 + 2000 else year0 + 1900)
                  else year0
      let dt := jsMakeDay (year : Int) ((month : Int) - 1) (day : Int)
      if isValidDay dt then some dt else none
    | none => none
  match fmt0 with
  | some d => some d
  | none =>
    let fmt1 : Option Int :=
      match jsMatchAnchored reDateFmt1 dateString with
      | some caps =>
        let year := digitsVal (capSlice dateString caps 0)
        let month := digitsVal (capSlice dateString caps 1)
        let day := digitsVal (capSlice dateString caps 2)
        let dt := jsMakeDay (year : Int) ((month : Int) - 1) (day : Int)
        if isValidDay dt then some dt else none
      | none => none
    match fmt1 with
    | some d => some d
    | none => parseISO dateString

/-- A JavaScript number that is not NaN: an exact rational (double
rounding is immaterial to the verified claims) or an infinity. -/
inductive JsNum where
  | fin (q : ℚ)
  | posInf
  | negInf
deriving DecidableEq

/-- The character class `[$kr\s]` with `/i`: the characters removed by
`parseAmount`'s first `replace`. -/
def moneyCls (c : Char) : Bool :=
  canonV c == canonV '$' || canonV c == canonV 'k' || canonV c == canonV 'r' || jsSpace c

/-- The test `/,\d{2}$/.test(s)`: the string ends in a comma followed by exactly
two digits. -/
def endsCommaDD (l : List Char) : Bool :=
  match l.reverse with
  | d2 :: d1 :: c :: _ => d1.isDigit && d2.isDigit && c == ','
  | _ => false

/-- JavaScript string replace of a comma by a dot: only the first comma is replaced. -/
def replaceFirstComma : List Char → List Char
  | [] => []
  | ',' :: t => '.' :: t
  | c :: t => c :: replaceFirstComma t

/-- The optional exponent suffix of a decimal literal (`parseFloat`
keeps the mantissa alone when no digits follow the `e`). -/
def parseExpPart (t : List Char) : Int :=
  let esgn : Int := match t with
    | '-' :: _ => -1
    | _ => 1
  let t2 : List Char := match t with
    | '+' :: u => u
    | '-' :: u => u
    | _ => t
  let ed := t2.takeWhile Char.isDigit
  if ed = [] then 0 else esgn * (digitsVal ed : Int)

/-- JavaScript `parseFloat`: longest decimal-literal prefix (optional
sign, digits with optional fraction, optional exponent, or `Infinity`);
`none` is NaN.  Leading whitespace needs no handling here because every
caller has already removed the `\s` class. -/
def parseFloatM (cs : List Char) : Option JsNum :=
  let sgn : ℚ := match cs with
    | '-' :: _ => -1
    | _ => 1
  let cs1 : List Char := match cs with
    | '+' :: t => t
    | '-' :: t => t
    | _ => cs
  if (litMatch false "Infinity".data cs1).isSome then
    some (if sgn = 1 then .posInf else .negInf)
  else
    let ip := cs1.takeWhile Char.isDigit
    let cs2 := cs1.dropWhile Char.isDigit
    let fp : List Char := match cs2 with
      | '.' :: t => t.takeWhile Char.isDigit
      | _ => []
    let cs3 : List Char := match cs2 with
      | '.' :: t => t.dropWhile Char.isDigit
      | _ => cs2
    if ip = [] ∧ fp = [] then none
    else
      let mant : ℚ := (digitsVal ip : ℚ) + (digitsVal fp : ℚ) / ((10 : ℚ) ^ fp.length)
      let ex : Int := match cs3 with
        | 'e' :: t => parseExpPart t
        | 'E' :: t => parseExpPart t
        | _ => 0
      some (.fin (sgn * mant * (10 : ℚ) ^ ex))

/-- Source `parseAmount`: strip currency symbols/`kr`/whitespace, detect
the Swedish decimal comma (`,dd` at the end), normalise the separators
accordingly, and `parseFloat`; `null` for the empty string or NaN. -/
def parseAmount (amountString : String) : Option JsNum :=
  if amountString = "" then none
  else
    let cleaned := trimL (amountString.data.filter (fun c => !moneyCls c))
    let cleaned :=
      if endsCommaDD cleaned then
        replaceFirstComma (cleaned.filter (fun c => !jsSpace c))
      else
        cleaned.filter (fun c => c != ',')
    match parseFloatM cleaned with
    | none => none
    | some v => some v

/-- The record produced by `receiptDataToExpense` (the source returns an
anonymous object of the `NewExpense` shape; its `date` field is a `Date`
value, modelled like `parseDate`'s result). -/
structure NewExpense where
  amount : JsNum
  description : String
  category : String
  date : Int
  from_ : Option String
  to_ : Option String
  transactionType : Option String
deriving DecidableEq

/-- Source `receiptDataToExpense` (`useExpenses.ts`): `amount || 0`,
`data.to` defaulted to `Unknown transaction`, fixed category `Other`,
`date || new Date()` (the current date is the `now` parameter), and the
remaining fields passed through.  The conditionals mirror JavaScript
truthiness: an empty string field skips the parser; a parsed `0` (or
`-0`) is falsy, which `|| 0` maps to `0` again, numerically the
identity. -/
def receiptDataToExpense (parseISO : String → Option Int) (now : Int)
    (data : BankReceiptData) : NewExpense :=
  let amount : Option JsNum :=
    match data.amount with
    | some s => if s = "" then none else parseAmount s
    | none => none
  let date : Option Int :=
    match data.date with
    | some s => if s = "" then none else parseDate parseISO s
    | none => none
  { amount := match amount with
      | some v => if v = .fin 0 then .fin 0 else v
      | none => .fin 0,
    description := match data.to_ with
      | some s => if s = "" then "Unknown transaction" else s
      | none => "Unknown transaction",
    category := "Other",
    date := date.getD now,
    from_ := data.from_,
    to_ := data.to_,
    transactionType := data.transactionType }

/-- The five field values of a `BankReceiptData` record, for stating
per-field invariants uniformly. -/
def fieldVals (d : BankReceiptData) : List (Option String) :=
  [d.from_, d.to_, d.amount, d.transactionType, d.date]


/-! ## Lemmas: trimming and substring preservation -/

/-- The function `dropWhile` is idempotent. -/
theorem dropWhile_dropWhile (p : Char → Bool) (l : List Char) :
    (l.dropWhile p).dropWhile p = l.dropWhile p := by
  induction l with
  | nil => rfl
  | cons c t ih =>
    by_cases h : p c = true
    · simp [List.dropWhile_cons, h, ih]
    · simp [List.dropWhile_cons, h]

/-- The head of a `dropWhile` result fails the predicate. -/
theorem dropWhile_head_false (p : Char → Bool) (l : List Char) (c : Char) (t : List Char)
    (h : l.dropWhile p = c :: t) : p c = false := by
  induction l with
  | nil => simp at h
  | cons a l ih =>
    rw [List.dropWhile_cons] at h
    split at h
    · exact ih h
    · next hpa =>
      injection h with h1 _
      subst h1
      simpa using hpa

/-- The function `dropWhile` removes a leading segment. -/
theorem dropWhile_decomp (p : Char → Bool) (l : List Char) :
    ∃ pre, l = pre ++ l.dropWhile p := by
  induction l with
  | nil => exact ⟨[], rfl⟩
  | cons a l ih =>
    rw [List.dropWhile_cons]
    split
    · obtain ⟨pre, hp⟩ := ih
      exact ⟨a :: pre, by rw [List.cons_append, ← hp]⟩
    · exact ⟨[], rfl⟩

/-- A trimmed list has no trailing whitespace left to strip. -/
theorem trimL_no_trail (l : List Char) :
    (trimL l).reverse.dropWhile jsSpace = (trimL l).reverse := by
  unfold trimL
  rw [List.reverse_reverse]
  exact dropWhile_dropWhile jsSpace _

/-- A trimmed list has no leading whitespace left to strip. -/
theorem trimL_no_lead (l : List Char) :
    (trimL l).dropWhile jsSpace = trimL l := by
  unfold trimL
  rcases hB : (l.dropWhile jsSpace).reverse.dropWhile jsSpace with _ | ⟨b, bt⟩
  · simp
  · obtain ⟨pre, hpre⟩ := dropWhile_decomp jsSpace (l.dropWhile jsSpace).reverse
    rw [hB] at hpre
    have hArev : l.dropWhile jsSpace = (b :: bt).reverse ++ pre.reverse := by
      rw [← List.reverse_reverse (l.dropWhile jsSpace), hpre, List.reverse_append]
    rcases hxr : (b :: bt).reverse with _ | ⟨x, xs⟩
    · exact absurd (congrArg List.length hxr) (by simp)
    · have hxA : l.dropWhile jsSpace = x :: (xs ++ pre.reverse) := by
        rw [hArev, hxr, List.cons_append]
      have hx : jsSpace x = false := dropWhile_head_false jsSpace l x _ hxA
      rw [List.dropWhile_cons, if_neg (by simp [hx])]

/-- JavaScript `trim` is idempotent (list level). -/
theorem trimL_idem (l : List Char) : trimL (trimL l) = trimL l := by
  show (((trimL l).dropWhile jsSpace).reverse.dropWhile jsSpace).reverse = trimL l
  rw [trimL_no_lead, trimL_no_trail, List.reverse_reverse]

/-- A literal matches at the head of itself followed by anything. -/
theorem litMatch_self (sub post : List Char) : litMatch false sub (sub ++ post) = some post := by
  induction sub with
  | nil => rfl
  | cons c t ih => simp [litMatch, ih]

/-- The predicate `occursIn` is preserved by extending the subject on the left. -/
theorem occursIn_cons (sub : List Char) (c : Char) (cs : List Char)
    (h : occursIn sub cs = true) : occursIn sub (c :: cs) = true := by
  unfold occursIn
  simp [h]

/-- Any middle segment occurs in the surrounding list. -/
theorem occursIn_append (pre sub post : List Char) :
    occursIn sub (pre ++ (sub ++ post)) = true := by
  induction pre with
  | nil =>
    unfold occursIn
    simp [litMatch_self]
  | cons c t ih => exact occursIn_cons _ _ _ ih

/-- A slice splits the subject into prefix, slice, suffix. -/
theorem sliceL_decomp (cs : List Char) (a b : Nat) :
    ∃ pre post, cs = pre ++ (sliceL cs a b ++ post) := by
  refine ⟨(cs.take b).take a, cs.drop b, ?_⟩
  unfold sliceL
  conv_lhs => rw [← List.take_append_drop b cs, ← List.take_append_drop a (cs.take b)]
  rw [List.append_assoc]

/-- Trimming splits a list into whitespace prefix, core, whitespace
suffix. -/
theorem trimL_decomp (v : List Char) : ∃ pre post, v = pre ++ (trimL v ++ post) := by
  obtain ⟨p1, hp1⟩ := dropWhile_decomp jsSpace v
  obtain ⟨p2, hp2⟩ := dropWhile_decomp jsSpace (v.dropWhile jsSpace).reverse
  refine ⟨p1, p2.reverse, ?_⟩
  conv_lhs => rw [hp1]
  congr 1
  conv_lhs => rw [← List.reverse_reverse (v.dropWhile jsSpace), hp2]
  rw [List.reverse_append]
  rfl

/-- Whatever `extractField` returns is its own trim and a contiguous
substring of the subject text. -/
theorem extractField_sub (text : String) (re : List RItem) (v : String)
    (h : extractField text re = some v) :
    jsTrim v = v ∧ occursIn v.data text.data = true := by
  unfold extractField jsMatchGroup1 at h
  rcases hs : jsSearch re text with _ | caps <;> rw [hs] at h
  · simp at h
  · rcases caps with _ | ⟨⟨a, b⟩, rest⟩
    · simp at h
    · simp only [Option.map_some', Option.some.injEq] at h
      have hv : v = jsTrim (String.mk (sliceL text.data a b)) := h.symm
      constructor
      · rw [hv]
        unfold jsTrim
        exact congrArg String.mk (trimL_idem _)
      · have hvdata : v.data = trimL (sliceL text.data a b) := by rw [hv]; rfl
        obtain ⟨pre, post, hsp⟩ := sliceL_decomp text.data a b
        obtain ⟨p2, q2, htd⟩ := trimL_decomp (sliceL text.data a b)
        rw [hvdata]
        generalize hw : trimL (sliceL text.data a b) = w at htd ⊢
        conv_lhs => rw [hsp, htd]
        have := occursIn_append (pre ++ p2) w (q2 ++ post)
        simpa [List.append_assoc] using this

/-- Unfolding JavaScript `||` on extraction results. -/
theorem orF_eq_some (a b : Option String) (v : String) (h : orF a b = some v) :
    a = some v ∨ b = some v := by
  rcases a with _ | s
  · exact Or.inr h
  · by_cases hs : s = ""
    · right
      simpa [orF, hs] using h
    · left
      simpa [orF, hs] using h

/-! ## Claims C1–C3, C8 -/

/-- Claim C1 (counterexample): on the exact transcription
`FROM: Alice Corp\nTO: Bob LLC\nAMOUNT: $42.50\nDATE: 2025-03-14` the
extracted amount is `42.50`, not `$42.50`: the optional `\$?` of the
amount pattern sits outside the capture group, so the currency symbol is
never part of the field value. -/
theorem c1_counterexample :
    (parseBankReceiptText "FROM: Alice Corp\nTO: Bob LLC\nAMOUNT: $42.50\nDATE: 2025-03-14").amount
      = some "42.50" ∧
    (parseBankReceiptText "FROM: Alice Corp\nTO: Bob LLC\nAMOUNT: $42.50\nDATE: 2025-03-14").amount
      ≠ some "$42.50" := by
  constructor
  · decide
  · decide

/-- Claim C1 (amended): on the transcription consisting exactly of
`FROM: Alice Corp\nTO: Bob LLC\nAMOUNT: $42.50\nDATE: 2025-03-14`,
`parseBankReceiptText` returns from = `Alice Corp`, to = `Bob LLC`,
amount = `42.50` (the captured numeric string, without the currency
symbol) and date = `2025-03-14` (via the bare ISO fallback pattern). -/
theorem c1_amended :
    parseBankReceiptText "FROM: Alice Corp\nTO: Bob LLC\nAMOUNT: $42.50\nDATE: 2025-03-14" =
      { from_ := some "Alice Corp", to_ := some "Bob LLC", amount := some "42.50",
        transactionType := none, date := some "2025-03-14" } := by
  decide

/-- Claim C2 (counterexample): on the transcription `"Typ: \n"` the
`transactionType` field is present but empty — the pattern
`/Typ[:\s]+([^\n]+)/i` captures the lone blank, which trims to the empty
string, and it is the last pattern of its `||` chain — refuting the
non-emptiness part of the claim. -/
theorem c2_counterexample :
    (parseBankReceiptText "Typ: \n").transactionType = some "" ∧
    ¬ (∀ v : String, (parseBankReceiptText "Typ: \n").transactionType = some v → v ≠ "") := by
  refine ⟨by decide, fun hall => hall "" (by decide) rfl⟩

/-- Claim C2 (amended): every present field value of
`parseBankReceiptText text` equals its own whitespace-trim and occurs as
a contiguous substring of `text` (extraction never synthesizes text);
the value may however be the empty string, so non-emptiness does not
hold. -/
theorem c2_amended (text v : String)
    (h : some v ∈ fieldVals (parseBankReceiptText text)) :
    jsTrim v = v ∧ occursIn v.data text.data = true := by
  simp only [fieldVals, parseBankReceiptText, List.mem_cons, List.mem_singleton,
    List.not_mem_nil, or_false] at h
  rcases h with h | h | h | h | h <;>
  · replace h := h.symm
    repeat'
      first
      | exact extractField_sub _ _ _ h
      | rcases orF_eq_some _ _ _ h with h | h

/-- Claim C2 (witness for the amended theorem). -/
theorem c2_amended_witness :
    jsTrim "Alice" = "Alice" ∧ occursIn "Alice".data "FROM: Alice\n".data = true :=
  c2_amended "FROM: Alice\n" "Alice" (by decide)

/-- Claim C3: the source's Swedish sender pattern is mojibake — the
literal's bytes decode to `FrÃ¥n`, the double-UTF-8-encoding of `Från` —
so on the transcription `"Från: Handlaren AB\nBelopp: 123,45 kr"` the
code extracts no sender at all (`from = undefined`), contradicting the
claim, while the intended literal `Från` (second conjunct) would have
extracted `Handlaren AB`.  The amount is `123,45` via the Swedish
`Belopp` pattern, as claimed. -/
theorem c3_mojibake_eval :
    parseBankReceiptText "Från: Handlaren AB\nBelopp: 123,45 kr" =
      { from_ := none, to_ := none, amount := some "123,45",
        transactionType := none, date := none } ∧
    extractField "Från: Handlaren AB\nBelopp: 123,45 kr"
      [RItem.lit ['F', 'r', 'å', 'n'] true, RItem.many colonSpace 1 none,
       RItem.openG, RItem.many notNL 1 none, RItem.closeG] = some "Handlaren AB" := by
  constructor
  · decide
  · decide

/-- Claim C8: `parseBankReceiptText` is a pure function of the
transcription string: the embedding is deterministic by construction,
which is faithful because the source's regex literals are fresh objects
on every invocation and none carries the global flag, so no `lastIndex`
state can persist between calls. -/
theorem c8_pure_idempotent (t : String) :
    parseBankReceiptText t = parseBankReceiptText t := rfl

/-! ## Matcher step lemmas (for the symbolic date-format proof) -/

/-- The search `findSome?` only depends on the function's values. -/
theorem findSomeExt {α β : Type} (f g : α → Option β) (l : List α) (h : ∀ a, f a = g a) :
    l.findSome? f = l.findSome? g := by
  induction l with
  | nil => rfl
  | cons a t ih =>
    rw [List.findSome?_cons, List.findSome?_cons, h a]
    cases g a
    · exact ih
    · rfl

/-- Any sufficient fuel computes the canonical run: the matcher consumes
one item per recursive step, so fuel beyond the item count is inert. -/
theorem matchSeqF_ge (items : List RItem) : ∀ f : Nat, items.length < f →
    ∀ cs pos gs caps, matchSeqF f items cs pos gs caps = matchRun items cs pos gs caps := by
  induction items with
  | nil =>
    intro f hf cs pos gs caps
    rcases f with _ | f
    · omega
    · rfl
  | cons it rest ih =>
    intro f hf cs pos gs caps
    rcases f with _ | f
    · omega
    · have hr : rest.length < f := by
        simp only [List.length_cons] at hf
        omega
    
      cases it with
      | cls p =>
        rcases cs with _ | ⟨c, cs'⟩
        · rfl
        · show (if p c = true then matchSeqF f rest cs' (pos + 1) gs caps else none) = _
          unfold matchRun
          simp only [List.length_cons]
          show _ = (if p c = true then
            matchSeqF (rest.length + 1) rest cs' (pos + 1) gs caps else none)
          by_cases hp : p c = true
          · rw [if_pos hp, if_pos hp, ih f hr, matchRun]
          · rw [if_neg hp, if_neg hp]
      | lit s ci =>
        unfold matchRun
        simp only [List.length_cons, matchSeqF]
        rcases litMatch ci s cs with _ | cs'
        · rfl
        · exact (ih f hr cs' (pos + s.length) gs caps).trans (by rw [matchRun])
      | many p lo hi =>
        unfold matchRun
        cases hi <;>
        · simp only [List.length_cons, matchSeqF]
          split_ifs
          · rfl
          · refine findSomeExt _ _ _ fun i => ?_
            exact (ih f hr _ _ gs caps).trans (by rw [matchRun])
      | openG =>
        show matchSeqF f rest cs pos (pos :: gs) caps = _
        unfold matchRun
        simp only [List.length_cons]
        rw [ih f hr]
        rfl
      | closeG =>
        rcases gs with _ | ⟨g, gs'⟩
        · rfl
        · show matchSeqF f rest cs pos gs' (caps ++ [(g, pos)]) = _
          unfold matchRun
          simp only [List.length_cons]
          rw [ih f hr]
          rfl
      | eos =>
        rcases cs with _ | ⟨c, cs'⟩
        · show matchSeqF f rest [] pos gs caps = _
          unfold matchRun
          simp only [List.length_cons]
          rw [ih f hr]
          rfl
        · rfl

/-- The empty item list accepts and returns the captures. -/
theorem runStep_nil (cs : List Char) (pos : Nat) (gs : List Nat)
    (caps : List (Nat × Nat)) : matchRun [] cs pos gs caps = some caps := rfl

/-- A group opens: its start position is pushed. -/
theorem runStep_openG (rest : List RItem) (cs : List Char) (pos : Nat) (gs : List Nat)
    (caps : List (Nat × Nat)) :
    matchRun (.openG :: rest) cs pos gs caps = matchRun rest cs pos (pos :: gs) caps := by
  unfold matchRun
  simp only [List.length_cons]
  show matchSeqF (rest.length + 1 + 1) _ _ _ _ _ = _
  rw [show matchSeqF (rest.length + 1 + 1) (.openG :: rest) cs pos gs caps =
    matchSeqF (rest.length + 1) rest cs pos (pos :: gs) caps from rfl]

/-- A group closes: the capture is recorded. -/
theorem runStep_closeG (rest : List RItem) (cs : List Char) (pos : Nat) (g : Nat)
    (gs : List Nat) (caps : List (Nat × Nat)) :
    matchRun (.closeG :: rest) cs pos (g :: gs) caps =
      matchRun rest cs pos gs (caps ++ [(g, pos)]) := by
  unfold matchRun
  simp only [List.length_cons]
  rw [show matchSeqF (rest.length + 1 + 1) (.closeG :: rest) cs pos (g :: gs) caps =
    matchSeqF (rest.length + 1) rest cs pos gs (caps ++ [(g, pos)]) from rfl]

/-- A single-character class item consumes a matching character. -/
theorem runStep_cls {p : Char → Bool} {c : Char} (rest : List RItem) (cs : List Char)
    (pos : Nat) (gs : List Nat) (caps : List (Nat × Nat)) (hp : p c = true) :
    matchRun (.cls p :: rest) (c :: cs) pos gs caps =
      matchRun rest cs (pos + 1) gs caps := by
  unfold matchRun
  simp only [List.length_cons]
  rw [show matchSeqF (rest.length + 1 + 1) (.cls p :: rest) (c :: cs) pos gs caps =
    (if p c = true then matchSeqF (rest.length + 1) rest cs (pos + 1) gs caps else none)
    from rfl]
  rw [if_pos hp, matchSeqF_ge rest (rest.length + 1) (by omega)]

/-- The `$` anchor passes on an exhausted subject. -/
theorem runStep_eos_nil (rest : List RItem) (pos : Nat) (gs : List Nat)
    (caps : List (Nat × Nat)) :
    matchRun (.eos :: rest) [] pos gs caps = matchRun rest [] pos gs caps := by
  unfold matchRun
  simp only [List.length_cons]
  rw [show matchSeqF (rest.length + 1 + 1) (.eos :: rest) [] pos gs caps =
    matchSeqF (rest.length + 1) rest [] pos gs caps from rfl]

/-- The run length of a clean block: all of `l` satisfies `p` and the
continuation starts with a failing character (or is empty). -/
theorem runLen_append (p : Char → Bool) (l cs : List Char)
    (hall : l.all p = true)
    (hstop : ∀ c cs', cs = c :: cs' → p c = false) :
    runLen p (l ++ cs) = l.length := by
  induction l with
  | nil =>
    rcases cs with _ | ⟨c, cs'⟩
    · rfl
    · simp [runLen, hstop c cs' rfl]
  | cons a t ih =>
    simp only [List.all_cons, Bool.and_eq_true] at hall
    simp [runLen, hall.1, ih hall.2]

/-- A greedy bounded quantifier over a clean block consumes exactly the
block: the maximal feasible count is tried first, and it is the block
length. -/
theorem runStep_many {p : Char → Bool} (lo hi : Nat) (rest : List RItem)
    (l cs : List Char) (pos : Nat) (gs : List Nat) (caps r : List (Nat × Nat))
    (hall : l.all p = true)
    (hstop : ∀ c cs', cs = c :: cs' → p c = false)
    (hlo : lo ≤ l.length) (hhi : l.length ≤ hi)
    (hrest : matchRun rest cs (pos + l.length) gs caps = some r) :
    matchRun (.many p lo (some hi) :: rest) (l ++ cs) pos gs caps = some r := by
  have hrun : runLen p (l ++ cs) = l.length := runLen_append p l cs hall hstop
  unfold matchRun
  simp only [List.length_cons]
  rw [show matchSeqF (rest.length + 1 + 1) (.many p lo (some hi) :: rest) (l ++ cs) pos gs caps =
    (let n := min (runLen p (l ++ cs)) hi
     if n < lo then none
     else (List.range (n + 1 - lo)).findSome? fun i =>
       matchSeqF (rest.length + 1) rest ((l ++ cs).drop (n - i)) (pos + (n - i)) gs caps)
    from rfl]
  simp only [hrun, Nat.min_eq_left hhi]
  rw [if_neg (Nat.not_lt.mpr hlo)]
  rw [show l.length + 1 - lo = (l.length - lo) + 1 by omega]
  rw [List.range_succ_eq_map, List.findSome?_cons]
  simp only [Nat.sub_zero, List.drop_left]
  rw [matchSeqF_ge rest (rest.length + 1) (by omega), hrest]

/-! ## Lemmas: digits, date bounds, and the anchored date format -/

/-- A digit character's code point lies in `[48, 57]`. -/
theorem charDigit_toNat (c : Char) (h : c.isDigit = true) :
    48 ≤ c.toNat ∧ c.toNat ≤ 57 := by
  simp only [Char.isDigit, decide_eq_true_eq, Bool.and_eq_true, ge_iff_le,
    UInt32.le_def, BitVec.le_def] at h
  exact h

/-- A separator (`-` or `/`) is not a digit. -/
theorem dashSlash_not_digit (c : Char) (h : dashSlash c = true) : Char.isDigit c = false := by
  simp only [dashSlash, Bool.or_eq_true, beq_iff_eq] at h
  rcases h with h | h <;> subst h <;> decide

/-- Accumulator bound for the digit-string fold. -/
theorem digitsVal_foldl_lt (l : List Char) (hall : l.all Char.isDigit = true) : ∀ acc : Nat,
    l.foldl (fun a c => a * 10 + (c.toNat - 48)) acc < (acc + 1) * 10 ^ l.length := by
  induction l with
  | nil =>
    intro acc
    simp only [List.foldl_nil, List.length_nil, pow_zero, mul_one]
    omega
  | cons c t ih =>
    intro acc
    simp only [List.all_cons, Bool.and_eq_true] at hall
    have hc : c.toNat - 48 ≤ 9 := by
      have := charDigit_toNat c hall.1
      omega
    rw [List.foldl_cons]
    calc t.foldl (fun a c => a * 10 + (c.toNat - 48)) (acc * 10 + (c.toNat - 48))
        < (acc * 10 + (c.toNat - 48) + 1) * 10 ^ t.length := ih hall.2 _
      _ ≤ ((acc + 1) * 10) * 10 ^ t.length := Nat.mul_le_mul_right _ (by omega)
      _ = (acc + 1) * 10 ^ (c :: t).length := by
          rw [List.length_cons, pow_succ]
          ring

/-- The numeric value of an `n`-digit capture is below `10 ^ n`. -/
theorem digitsVal_lt (l : List Char) (hall : l.all Char.isDigit = true) :
    digitsVal l < 10 ^ l.length := by
  have := digitsVal_foldl_lt l hall 0
  simpa [digitsVal] using this

/-- Dates reachable from the parsed numeric formats are far inside the
ECMAScript time-value range, so `isValid` accepts them. -/
theorem isValidDay_small (y mi d : Int)
    (hy1 : 1900 ≤ y) (hy2 : y ≤ 2049) (hm1 : -1 ≤ mi) (hm2 : mi ≤ 98)
    (hd1 : 0 ≤ d) (hd2 : d ≤ 99) :
    isValidDay (jsMakeDay y mi d) = true := by
  simp only [isValidDay, jsMakeDay, daysFromCivil, decide_eq_true_eq]
  split_ifs <;> omega

/-- The initial slice of an append. -/
theorem sliceA (l rest : List Char) : sliceL (l ++ rest) 0 l.length = l := by
  unfold sliceL
  rw [List.drop_zero, List.take_left]

/-- The middle slice of a three-part append. -/
theorem sliceMid (a b c : List Char) :
    sliceL (a ++ (b ++ c)) a.length (a.length + b.length) = b := by
  unfold sliceL
  rw [← List.append_assoc]
  rw [show a.length + b.length = (a ++ b).length by simp]
  rw [List.take_left, List.drop_left]

/-- Symbolic run of `parseDate`'s first anchored format
`/^(\d{1,2})[-\/](\d{1,2})[-\/](\d{2,4})$/` on a subject of exactly that
shape: each greedy digit quantifier consumes its whole digit block (the
following separator fails the class), producing the three capture
groups. -/
theorem matchFmt0 (l1 l2 l3 : List Char) (c1 c2 : Char)
    (h1 : l1.all Char.isDigit = true) (h2 : l2.all Char.isDigit = true)
    (h3 : l3.all Char.isDigit = true)
    (hn1 : 1 ≤ l1.length) (hx1 : l1.length ≤ 2)
    (hn2 : 1 ≤ l2.length) (hx2 : l2.length ≤ 2)
    (hn3 : 2 ≤ l3.length) (hx3 : l3.length ≤ 4)
    (hc1 : dashSlash c1 = true) (hc2 : dashSlash c2 = true) :
    jsMatchAnchored reDateFmt0 (String.mk (l1 ++ c1 :: (l2 ++ c2 :: l3))) =
      some [(0, l1.length), (l1.length + 1, l1.length + 1 + l2.length),
            (l1.length + 1 + l2.length + 1, l1.length + 1 + l2.length + 1 + l3.length)] := by
  show matchRun
    [RItem.openG, RItem.many Char.isDigit 1 (some 2), RItem.closeG, RItem.cls dashSlash,
     RItem.openG, RItem.many Char.isDigit 1 (some 2), RItem.closeG, RItem.cls dashSlash,
     RItem.openG, RItem.many Char.isDigit 2 (some 4), RItem.closeG, RItem.eos]
    (l1 ++ c1 :: (l2 ++ c2 :: l3)) 0 [] [] = _
  rw [runStep_openG]
  refine runStep_many _ _ _ _ _ _ _ _ _ h1 (fun c cs' hcs => ?_) hn1 hx1 ?_
  · injection hcs with hh _
    subst hh
    exact dashSlash_not_digit c1 hc1
  simp only [Nat.zero_add]
  rw [runStep_closeG]
  simp only [List.nil_append]
  rw [runStep_cls _ _ _ _ _ hc1, runStep_openG]
  refine runStep_many _ _ _ _ _ _ _ _ _ h2 (fun c cs' hcs => ?_) hn2 hx2 ?_
  · injection hcs with hh _
    subst hh
    exact dashSlash_not_digit c2 hc2
  rw [runStep_closeG]
  simp only [List.cons_append, List.nil_append]
  rw [runStep_cls _ _ _ _ _ hc2, runStep_openG]
  conv_lhs => rw [← List.append_nil l3]
  refine runStep_many _ _ _ _ _ _ _ _ _ h3 (fun c cs' hcs => ?_) hn3 hx3 ?_
  · exact List.noConfusion hcs
  rw [runStep_closeG, runStep_eos_nil, runStep_nil]
  simp only [List.cons_append, List.nil_append]

/-! ## Claim C9 -/

/-- Claim C9 (counterexample): `"2-30-99"` denotes the invalid calendar
date February 30, 1999, yet `parseDate` does not return null: the
`new Date(1999, 1, 30)` constructor rolls the out-of-range day over to
March 2, 1999, and date-fns `isValid` accepts the result (it only
rejects NaN time values).  The `parseISO` parameter is irrelevant on
this input and is instantiated with the always-invalid parser. -/
theorem c9_counterexample :
    parseDate (fun _ => none) "2-30-99" = some (daysFromCivil 1999 3 2) ∧
    parseDate (fun _ => none) "2-30-99" ≠ none := by
  constructor
  · decide
  · decide

/-- Claim C9 (amended): for every string of the shape `D1[-\/]D2[-\/]Y`
with one-or-two-digit `D1`, `D2` and a two-digit `Y`, `parseDate`
interprets `D1` as the month and `D2` as the day (month-first, not
day-first), windows the two-digit year as `Y < 50 ↦ 2000 + Y`,
`Y ≥ 50 ↦ 1900 + Y`, and always returns a non-null date — out-of-range
month/day components are rolled over by the `new Date(year, month-1,
day)` arithmetic rather than rejected. -/
theorem c9_amended (parseISO : String → Option Int) (l1 l2 l3 : List Char) (c1 c2 : Char)
    (h1 : l1.all Char.isDigit = true) (h2 : l2.all Char.isDigit = true)
    (h3 : l3.all Char.isDigit = true)
    (hn1 : 1 ≤ l1.length) (hx1 : l1.length ≤ 2)
    (hn2 : 1 ≤ l2.length) (hx2 : l2.length ≤ 2)
    (hl3 : l3.length = 2)
    (hc1 : dashSlash c1 = true) (hc2 : dashSlash c2 = true) :
    parseDate parseISO (String.mk (l1 ++ c1 :: (l2 ++ c2 :: l3))) =
      some (jsMakeDay
        ((if digitsVal l3 < 50 then digitsVal l3 + 2000 else digitsVal l3 + 1900 : Nat) : Int)
        ((digitsVal l1 : Int) - 1) (digitsVal l2 : Int)) := by
  have hm1 : digitsVal l1 < 100 := by
    have ha := digitsVal_lt l1 h1
    have hb : (10 : Nat) ^ l1.length ≤ 10 ^ 2 := Nat.pow_le_pow_right (by omega) hx1
    omega
  have hm2 : digitsVal l2 < 100 := by
    have ha := digitsVal_lt l2 h2
    have hb : (10 : Nat) ^ l2.length ≤ 10 ^ 2 := Nat.pow_le_pow_right (by omega) hx2
    omega
  have hm3 : digitsVal l3 < 100 := by
    have ha := digitsVal_lt l3 h3
    rw [hl3] at ha
    omega
  have hcaps := matchFmt0 l1 l2 l3 c1 c2 h1 h2 h3 hn1 hx1 hn2 hx2
    (by omega) (by omega) hc1 hc2
  have hvalid : isValidDay (jsMakeDay
      ((if digitsVal l3 < 50 then digitsVal l3 + 2000 else digitsVal l3 + 1900 : Nat) : Int)
      ((digitsVal l1 : Int) - 1) (digitsVal l2 : Int)) = true := by
    refine isValidDay_small _ _ _ ?_ ?_ ?_ ?_ ?_ ?_ <;>
      first
      | (split_ifs <;> omega)
      | omega
  have hdata : (String.mk (l1 ++ c1 :: (l2 ++ c2 :: l3))).data =
      l1 ++ c1 :: (l2 ++ c2 :: l3) := rfl
  have hs1 : sliceL (l1 ++ c1 :: (l2 ++ c2 :: l3)) 0 l1.length = l1 :=
    sliceA l1 (c1 :: (l2 ++ c2 :: l3))
  have hs2 : sliceL (l1 ++ c1 :: (l2 ++ c2 :: l3)) (l1.length + 1)
      (l1.length + 1 + l2.length) = l2 := by
    have := sliceMid (l1 ++ [c1]) l2 (c2 :: l3)
    simpa [List.append_assoc] using this
  have hs3 : sliceL (l1 ++ c1 :: (l2 ++ c2 :: l3)) (l1.length + 1 + l2.length + 1)
      (l1.length + 1 + l2.length + 1 + l3.length) = l3 := by
    have h0 := sliceMid ((l1 ++ [c1]) ++ (l2 ++ [c2])) l3 []
    have hlen : ((l1 ++ [c1]) ++ (l2 ++ [c2])).length = l1.length + 1 + l2.length + 1 := by
      simp [List.length_append]
      omega
    rw [List.append_nil, hlen] at h0
    have hlist : (l1 ++ [c1]) ++ ((l2 ++ [c2]) ++ l3) = l1 ++ c1 :: (l2 ++ c2 :: l3) := by
      simp [List.append_assoc]
    rw [List.append_assoc, hlist] at h0
    exact h0
  unfold parseDate
  simp only [hcaps, capSlice, List.getD_cons_zero, List.getD_cons_succ, hdata,
    hs1, hs2, hs3]
  rw [if_pos hm3, if_pos hvalid]

/-- Claim C9 (witness for the amended theorem): `3-14-25` parses as
March 14, 2025. -/
theorem c9_amended_witness :
    parseDate (fun _ => none) "3-14-25" = some (jsMakeDay 2025 2 14) := by
  have h := c9_amended (fun _ => none) ['3'] ['1', '4'] ['2', '5'] '-' '-'
    (by decide) (by decide) (by decide) (by decide) (by decide) (by decide) (by decide)
    rfl (by decide) (by decide)
  exact h

/-! ## Claims C4–C7 (the PDF/OCR pipeline) -/

/-- Every caught error produces the tagged failure shape with a message
and no data. -/
theorem catchErr_spec (e : JsErr) :
    (catchErr e).success = false ∧ (catchErr e).data = none ∧
    (catchErr e).rawText = none ∧ (catchErr e).error.isSome = true := by
  cases e <;> simp [catchErr]

/-- Claim C6: `parseBankReceiptPDF` never propagates an exception (its
embedding is a total function into the tagged result type — every
throwing path of the body is converted by the `catch` clause), every
failure carries a message, and no failure carries data or a raw
transcription; a success carries both. -/
theorem c6_total_result_shape (file : JsFile) (env : OcrEnv) :
    ((parseBankReceiptPDF file env).1.success = false →
      (parseBankReceiptPDF file env).1.data = none ∧
      (parseBankReceiptPDF file env).1.rawText = none ∧
      (parseBankReceiptPDF file env).1.error.isSome = true) ∧
    ((parseBankReceiptPDF file env).1.success = true →
      (parseBankReceiptPDF file env).1.data.isSome = true ∧
      (parseBankReceiptPDF file env).1.rawText.isSome = true ∧
      (parseBankReceiptPDF file env).1.error = none) := by
  unfold parseBankReceiptPDF
  rcases hb : parseBankReceiptPDFBody file env with ⟨r, evs⟩
  rcases r with e | ⟨d, t⟩
  · refine ⟨fun _ => (catchErr_spec e).2, fun hs => absurd hs ?_⟩
    simp [(catchErr_spec e).1]
  · exact ⟨fun hs => by simp at hs, fun _ => by simp⟩

/-- Claim C6 (witness): an empty file yields a data-free, text-free
failure with a message. -/
theorem c6_witness :
    (parseBankReceiptPDF ⟨"application/pdf", 0⟩
        ⟨⟨.ok (), .ok (), .ok (), true, .ok (), ""⟩, .ok (), .ok "x", .ok ()⟩).1.data = none ∧
    (parseBankReceiptPDF ⟨"application/pdf", 0⟩
        ⟨⟨.ok (), .ok (), .ok (), true, .ok (), ""⟩, .ok (), .ok "x", .ok ()⟩).1.rawText = none ∧
    (parseBankReceiptPDF ⟨"application/pdf", 0⟩
        ⟨⟨.ok (), .ok (), .ok (), true, .ok (), ""⟩, .ok (), .ok "x", .ok ()⟩).1.error.isSome
      = true :=
  (c6_total_result_shape ⟨"application/pdf", 0⟩
    ⟨⟨.ok (), .ok (), .ok (), true, .ok (), ""⟩, .ok (), .ok "x", .ok ()⟩).1 (by decide)

/-- Claim C5: the three validation gates run before any OCR work — an
invalid declared media type, an oversize file, or an empty file each
yield the corresponding `PDFLoadError` message with an empty event trace
(so `createWorker`/`recognize` are never reached). -/
theorem c5_validation_gates (file : JsFile) (env : OcrEnv) :
    ((strIncludes file.type "pdf" || strIncludes file.type "image") = false →
      parseBankReceiptPDF file env =
        (catchErr (.load "Invalid file type. Please upload a PDF or image file."), [])) ∧
    ((strIncludes file.type "pdf" || strIncludes file.type "image") = true →
      maxSize < file.size →
      parseBankReceiptPDF file env = (catchErr (.load "File size exceeds 10MB limit."), [])) ∧
    ((strIncludes file.type "pdf" || strIncludes file.type "image") = true →
      file.size = 0 →
      parseBankReceiptPDF file env = (catchErr (.load "File is empty."), [])) ∧
    (file.size = 0 ∨ maxSize < file.size →
      (parseBankReceiptPDF file env).1.success = false ∧
      Ev.createWorker ∉ (parseBankReceiptPDF file env).2 ∧
      Ev.recognize ∉ (parseBankReceiptPDF file env).2) := by
  refine ⟨?_, ?_, ?_, ?_⟩
  · intro h
    unfold parseBankReceiptPDF parseBankReceiptPDFBody
    simp [h]
  · intro ht hs
    unfold parseBankReceiptPDF parseBankReceiptPDFBody
    simp [ht, hs]
  · intro ht hs
    unfold parseBankReceiptPDF parseBankReceiptPDFBody
    have : ¬ maxSize < file.size := by
      rw [hs]
      simp [maxSize]
    simp [ht, hs, this]
  · intro h
    rcases htype : (strIncludes file.type "pdf" || strIncludes file.type "image") with _ | _
    · unfold parseBankReceiptPDF parseBankReceiptPDFBody
      simp [htype, catchErr]
    · rcases h with h | h
      · have hnlt : ¬ maxSize < file.size := by
          rw [h]
          simp [maxSize]
        unfold parseBankReceiptPDF parseBankReceiptPDFBody
        simp [htype, h, hnlt, catchErr]
      · unfold parseBankReceiptPDF parseBankReceiptPDFBody
        simp [htype, h, catchErr]

/-- Claim C5 (witness): a 0-byte PDF file is rejected as empty with no
events. -/
theorem c5_witness :
    parseBankReceiptPDF ⟨"application/pdf", 0⟩
        ⟨⟨.ok (), .ok (), .ok (), true, .ok (), ""⟩, .ok (), .ok "x", .ok ()⟩ =
      (catchErr (.load "File is empty."), []) :=
  (c5_validation_gates ⟨"application/pdf", 0⟩
    ⟨⟨.ok (), .ok (), .ok (), true, .ok (), ""⟩, .ok (), .ok "x", .ok ()⟩).2.2.1
    (by decide) rfl

/-- Claim C4 (counterexample): when the 2D canvas context cannot be
acquired, the pipeline returns the generic wrapped-unknown-error shape
`Failed to process file: Failed to get canvas context`, not a
`PDFLoadError`-classified message: `pdfToImageDataURL` throws a plain
`Error`, which the catch clause does not recognise as `PDFLoadError`. -/
theorem c4_counterexample :
    (parseBankReceiptPDF ⟨"application/pdf", 5⟩
        ⟨⟨.ok (), .ok (), .ok (), false, .ok (), ""⟩, .ok (), .ok "text", .ok ()⟩).1 =
      { success := false, data := none, rawText := none,
        error := some "Failed to process file: Failed to get canvas context" } := by
  decide

/-- Claim C4 (amended): whenever canvas-context acquisition fails during
PDF rendering (with the validations passing and the other library calls
succeeding), `parseBankReceiptPDF` returns the generic wrapped failure
`Failed to process file: Failed to get canvas context` — the plain
`Error` thrown at the missing context is not classified as
`PDFLoadError`. -/
theorem c4_amended (file : JsFile) (env : OcrEnv)
    (htype : file.type = "application/pdf")
    (hpos : 0 < file.size) (hsz : file.size ≤ maxSize)
    (hcw : env.createWorkerR = .ok ())
    (hab : env.pdf.arrayBufferR = .ok ())
    (hld : env.pdf.loadR = .ok ())
    (hpg : env.pdf.pageR = .ok ())
    (hctx : env.pdf.contextOk = false)
    (hterm : env.terminateR = .ok ()) :
    (parseBankReceiptPDF file env).1 =
      { success := false, data := none, rawText := none,
        error := some "Failed to process file: Failed to get canvas context" } := by
  have h1 : (strIncludes file.type "pdf" || strIncludes file.type "image") = true := by
    rw [htype]
    decide
  have h2 : ¬ maxSize < file.size := Nat.not_lt.mpr hsz
  have h3 : ¬ file.size = 0 := by omega
  have h4 : strIncludes "application/pdf" "pdf" = true := by decide
  unfold parseBankReceiptPDF parseBankReceiptPDFBody extractTextWithOCR pdfToImageDataURL
  rw [hcw, hab, hld, hpg, hctx, hterm, htype]
  simp [h1, h2, h3, h4, catchErr]

/-- Claim C4 (witness for the amended theorem). -/
theorem c4_amended_witness :
    (parseBankReceiptPDF ⟨"application/pdf", 7⟩
        ⟨⟨.ok (), .ok (), .ok (), false, .ok (), "u"⟩, .ok (), .ok "t", .ok ()⟩).1 =
      { success := false, data := none, rawText := none,
        error := some "Failed to process file: Failed to get canvas context" } :=
  c4_amended ⟨"application/pdf", 7⟩
    ⟨⟨.ok (), .ok (), .ok (), false, .ok (), "u"⟩, .ok (), .ok "t", .ok ()⟩
    rfl (by decide) (by decide) rfl rfl rfl rfl rfl rfl

/-- Claim C7 (counterexample): when the canvas context is missing, the
document was loaded (`getDocument` occurred) but `pdf.destroy()` is
never invoked — the trace of the failing run contains no `destroyDoc`
event, refuting release-on-every-path. -/
theorem c7_counterexample :
    pdfToImageDataURL ⟨.ok (), .ok (), .ok (), false, .ok (), ""⟩ =
      (.error (.generic "Failed to get canvas context"), [.getDocument, .getPage]) ∧
    Ev.destroyDoc ∉ [Ev.getDocument, Ev.getPage] := by
  constructor
  · rfl
  · decide

/-- Claim C7 (amended): `pdfToImageDataURL` releases the pdf.js document
handle exactly on the success path — `pdf.destroy()` appears in the
event trace if and only if the call returns a data URL; on the failure
paths (load, page, missing canvas context, render) the handle is not
destroyed, because the function has no `try`/`finally`. -/
theorem c7_amended (env : PdfEnv) :
    (∃ s, (pdfToImageDataURL env).1 = .ok s) ↔
      Ev.destroyDoc ∈ (pdfToImageDataURL env).2 := by
  rcases env with ⟨ab, ld, pg, ctx, rnd, url⟩
  rcases ab with e | u <;> rcases ld with e2 | u2 <;> rcases pg with e3 | u3 <;>
    cases ctx <;> rcases rnd with e4 | u4 <;>
    simp [pdfToImageDataURL]

/-! ## Claim C10 -/

/-- Claim C10: `receiptDataToExpense` always assigns category `Other`;
the amount defaults to `0` whenever the amount field is absent or
unparseable (`parseAmount` null); the description defaults to
`Unknown transaction` when the recipient is absent; the date defaults to
the current date (`now`) when the date field is absent or unparseable;
and `from`, `to`, `transactionType` pass through unchanged. -/
theorem c10_receipt_to_expense (parseISO : String → Option Int) (now : Int)
    (data : BankReceiptData) :
    (receiptDataToExpense parseISO now data).category = "Other" ∧
    ((∀ s, data.amount = some s → parseAmount s = none) →
      (receiptDataToExpense parseISO now data).amount = JsNum.fin 0) ∧
    (data.to_ = none →
      (receiptDataToExpense parseISO now data).description = "Unknown transaction") ∧
    ((∀ s, data.date = some s → parseDate parseISO s = none) →
      (receiptDataToExpense parseISO now data).date = now) ∧
    (receiptDataToExpense parseISO now data).from_ = data.from_ ∧
    (receiptDataToExpense parseISO now data).to_ = data.to_ ∧
    (receiptDataToExpense parseISO now data).transactionType = data.transactionType := by
  refine ⟨rfl, ?_, ?_, ?_, rfl, rfl, rfl⟩
  · intro h
    rcases hda : data.amount with _ | s
    · simp [receiptDataToExpense, hda]
    · by_cases hse : s = ""
      · simp [receiptDataToExpense, hda, hse]
      · simp [receiptDataToExpense, hda, hse, h s hda]
  · intro h
    simp [receiptDataToExpense, h]
  · intro h
    rcases hdd : data.date with _ | s
    · simp [receiptDataToExpense, hdd]
    · by_cases hse : s = ""
      · simp [receiptDataToExpense, hdd, hse]
      · simp [receiptDataToExpense, hdd, hse, h s hdd]

/-- Claim C10 (witness): the all-absent record maps to the defaults. -/
theorem c10_witness :
    (receiptDataToExpense (fun _ => none) 0 ⟨none, none, none, none, none⟩).category
        = "Other" ∧
    (receiptDataToExpense (fun _ => none) 0 ⟨none, none, none, none, none⟩).amount
        = JsNum.fin 0 ∧
    (receiptDataToExpense (fun _ => none) 0 ⟨none, none, none, none, none⟩).description
        = "Unknown transaction" ∧
    (receiptDataToExpense (fun _ => none) 0 ⟨none, none, none, none, none⟩).date = 0 := by
  obtain ⟨hcat, hamt, hdesc, hdate, _⟩ :=
    c10_receipt_to_expense (fun _ => none) 0 ⟨none, none, none, none, none⟩
  exact ⟨hcat, hamt (fun s h => Option.noConfusion h),
    hdesc rfl, hdate (fun s h => Option.noConfusion h)⟩
